import Mathlib

/-!
Verification of the Medical Image Enhancement System frontend.

The development embeds the repository's JavaScript source in Lean:
* the mock data layer (`mockEnhancementHistory`, `mockAPI`),
* the upload validation in `handleFileSelect` (ImageUpload.jsx),
* the canvas pixel loop in `simulateEnhancement` (mock ImageUpload.jsx),
* the download handler in EnhancementHistory.jsx.

JavaScript numbers are modelled as exact rationals (`ℚ`); writes into a
canvas `Uint8ClampedArray` are modelled by `toUint8Clamp`, the ECMAScript
`ToUint8Clamp` conversion (clamp to [0,255], round to nearest, ties to even).
The source does this arithmetic in IEEE-754 float64, which agrees with the
exact rationals except possibly in the direction a value rounds when the
exact value is a half-integer tie; theorems about all inputs therefore only
assert tie-insensitive consequences of the stored byte (a bound of 1/2 from
the exact value), and concrete evaluations are at inputs far from any tie,
where float64 and exact arithmetic round to the same byte.
-/

/-- ECMAScript `ToUint8Clamp`: the conversion applied when a number is stored
into a `Uint8ClampedArray` element, as the canvas pixel loop does.
Clamps to [0, 255] and rounds to the nearest integer, ties to even. -/
def toUint8Clamp (q : ℚ) : ℕ :=
  if q ≤ 0 then 0
  else if 255 ≤ q then 255
  else
    let f : ℤ := ⌊q⌋
    if q - f < 1 / 2 then f.toNat
    else if (1 : ℚ) / 2 < q - f then f.toNat + 1
    else if f % 2 = 0 then f.toNat else f.toNat + 1

/-- A pixel of canvas image data: red, green, blue, alpha byte values. -/
structure Pixel where
  r : ℕ
  g : ℕ
  b : ℕ
  a : ℕ
deriving DecidableEq

/-- The luma computed by the pixel loop of `simulateEnhancement`:
`data[i] * 0.299 + data[i + 1] * 0.587 + data[i + 2] * 0.114`.
The source evaluates this in float64; here it is the exact rational value,
which is within 2⁻⁴⁰ of the float64 result for byte inputs. -/
def luma (p : Pixel) : ℚ :=
  (p.r : ℚ) * (299 / 1000) + (p.g : ℚ) * (587 / 1000) + (p.b : ℚ) * (114 / 1000)

/-- The pixel loop of `simulateEnhancement`, on the flat RGBA byte array
`data` of the canvas image: for each group of four bytes, compute the
grayscale value `gray`, the boosted value `enhanced = min(255, gray * 1.2)`,
store it into the R, G and B slots (a `Uint8ClampedArray` write), and leave
the alpha slot unchanged.  The arithmetic is exact rational where the source
uses float64: the stored byte agrees with the source except possibly when
the exact enhanced value is a half-integer tie, where float64 may round the
other way; theorems quantifying over all pixels assert only facts shared by
both roundings. -/
def enhanceData : List ℕ → List ℕ
  | r :: g :: b :: a :: rest =>
    let gray : ℚ := (r : ℚ) * (299 / 1000) + (g : ℚ) * (587 / 1000) + (b : ℚ) * (114 / 1000)
    let enhanced : ℚ := min 255 (gray * (12 / 10))
    let e : ℕ := toUint8Clamp enhanced
    e :: e :: e :: a :: enhanceData rest
  | l => l

/-- Raw canvas image data: dimensions plus the flat RGBA byte array. -/
structure RasterImage where
  width : ℕ
  height : ℕ
  data : List ℕ
deriving DecidableEq

/-- An encoded image (a data URL): its mime format and the raster it decodes to. -/
structure EncodedImage where
  format : String
  raster : RasterImage
deriving DecidableEq

/-- `simulateEnhancement` from the mock ImageUpload.jsx: decode the uploaded
data URL onto the canvas (`drawImage` / `getImageData`), run the pixel loop
`enhanceData`, and re-encode with `canvas.toDataURL('image/png')` — the
output format is the constant `"image/png"` whatever the input format was. -/
def simulateEnhancement (originalImage : EncodedImage) : EncodedImage :=
  let imageData := originalImage.raster
  { format := "image/png"
    raster := { imageData with data := enhanceData imageData.data } }

/-- Flatten a pixel list into the RGBA byte array the canvas exposes. -/
def flattenPixels : List Pixel → List ℕ
  | [] => []
  | p :: ps => p.r :: p.g :: p.b :: p.a :: flattenPixels ps

/-- Evaluation helper: `toUint8Clamp` rounds down when the value sits in
`[n, n + 1/2)` for a natural `n < 255`. -/
lemma toUint8Clamp_eq_round_down (q : ℚ) (n : ℕ) (h0 : 0 < q) (h255 : q < 255)
    (hn : (n : ℚ) ≤ q) (hfrac : q - n < 1 / 2) : toUint8Clamp q = n := by
  have hfl : ⌊q⌋ = (n : ℤ) := by
    rw [Int.floor_eq_iff]
    constructor
    · exact_mod_cast hn
    · push_cast
      linarith
  unfold toUint8Clamp
  rw [if_neg (by linarith), if_neg (by linarith)]
  simp only [hfl]
  rw [if_pos (by push_cast; linarith)]
  simp

/-- Whatever the rounding direction, the byte `toUint8Clamp` stores for a
value in [0, 255] is within 1/2 of that value. -/
lemma toUint8Clamp_close (q : ℚ) (h0 : 0 ≤ q) (h255 : q ≤ 255) :
    |(toUint8Clamp q : ℚ) - q| ≤ 1 / 2 := by
  have hfl : ((⌊q⌋ : ℤ) : ℚ) ≤ q := Int.floor_le q
  have hfu : q < ((⌊q⌋ : ℤ) : ℚ) + 1 := Int.lt_floor_add_one q
  simp only [toUint8Clamp]
  split_ifs with h1 h2 h3 h4 h5
  · have hq : q = 0 := le_antisymm h1 h0
    subst hq
    norm_num
  · have hq : q = 255 := le_antisymm h255 h2
    subst hq
    norm_num
  all_goals
    have hfn : (0 : ℤ) ≤ ⌊q⌋ := Int.floor_nonneg.mpr h0
  all_goals
    have hcast : ((⌊q⌋.toNat : ℕ) : ℚ) = ((⌊q⌋ : ℤ) : ℚ) := by
      exact_mod_cast Int.toNat_of_nonneg hfn
  all_goals
    rw [abs_le]
  all_goals
    constructor <;> push_cast [hcast] <;> linarith

/-- The luma of a pixel is never negative. -/
lemma luma_nonneg (p : Pixel) : 0 ≤ luma p := by
  unfold luma
  positivity

/- ===== Upload validation (handleFileSelect, ImageUpload.jsx) ===== -/

/-- A file as handed to `handleFileSelect` by the file input: its name,
declared mime type and size in bytes. -/
structure JSFile where
  name : String
  type : String
  size : ℕ
deriving DecidableEq

/-- The allow-list of `handleFileSelect`: `['image/jpeg', 'image/jpg', 'image/png']`. -/
def validTypes : List String := ["image/jpeg", "image/jpg", "image/png"]

/-- Outcome of `handleFileSelect`: which early-return branch fired, or that
the file was accepted and the upload proceeded. -/
inductive UploadOutcome
  | invalidFormat
  | fileTooLarge
  | accepted
deriving DecidableEq

/-- Observable side effects of `handleFileSelect`: whether a file was stored
in component state (`setUploadedFile`) and whether an upload request was
issued to the backend (which is what would create a job record and an asset). -/
structure UploadEffects where
  uploadedFile : Option JSFile
  uploadRequested : Bool
deriving DecidableEq

/-- The empty effect of an early-returning validation branch. -/
def noEffects : UploadEffects := ⟨none, false⟩

/-- `handleFileSelect` from ImageUpload.jsx: reject when the mime type is not
in `validTypes`; otherwise reject when `file.size > 10 * 1024 * 1024`;
otherwise store the file and start the upload.  The two validation branches
return early, before any state change or request. -/
def handleFileSelect (file : JSFile) : UploadEffects × UploadOutcome :=
  if validTypes.contains file.type = false then (noEffects, .invalidFormat)
  else if file.size > 10 * 1024 * 1024 then (noEffects, .fileTooLarge)
  else (⟨some file, true⟩, .accepted)

/- ===== Mock data and mock API (mockData.js) ===== -/

/-- One record of `mockEnhancementHistory` / one item of the history list. -/
structure EnhancementRecord where
  id : String
  originalImageName : String
  enhancedImageName : String
  uploadDate : String
  enhancementType : String
  status : String
  processingTime : ℚ
deriving DecidableEq

/-- `mockEnhancementHistory` from mockData.js, verbatim. -/
def mockEnhancementHistory : List EnhancementRecord :=
  [{ id := "1"
     originalImageName := "brain_scan_001.png"
     enhancedImageName := "enhanced_brain_scan_001.png"
     uploadDate := "2025-01-15T10:30:00Z"
     enhancementType := "Grayscale + Sharpening"
     status := "Completed"
     processingTime := 15 / 10 },
   { id := "2"
     originalImageName := "chest_xray_002.jpg"
     enhancedImageName := "enhanced_chest_xray_002.png"
     uploadDate := "2025-01-14T15:45:00Z"
     enhancementType := "Grayscale + Sharpening"
     status := "Completed"
     processingTime := 21 / 10 },
   { id := "3"
     originalImageName := "mri_scan_003.png"
     enhancedImageName := "enhanced_mri_scan_003.png"
     uploadDate := "2025-01-13T09:15:00Z"
     enhancementType := "Grayscale + Sharpening"
     status := "Completed"
     processingTime := 18 / 10 }]

/-- The JavaScript `s.substr(start, len)` slice of a string. -/
def substr (s : String) (start len : ℕ) : String :=
  String.mk ((s.data.drop start).take len)

/-- The resolution value of `mockAPI.uploadImage`. -/
structure UploadAPIResponse where
  success : Bool
  imageId : String
  message : String
  originalImageUrl : String
deriving DecidableEq

/-- `mockAPI.uploadImage` from mockData.js.  The `formData` argument is the
submitted form; `randString36` stands for the string produced by
`Math.random().toString(36)` (a base-36 numeral such as `"0.k3j8f9d2a"`),
of which the code keeps `.substr(2, 9)`.  The promise always resolves with
`success: true`; nothing inspects `formData`. -/
def uploadImage (formData : List (String × String)) (randString36 : String) :
    UploadAPIResponse :=
  { success := true
    imageId := substr randString36 2 9
    message := "Image uploaded successfully"
    originalImageUrl := "/mock-image-url" }

/-- The resolution value of `mockAPI.getEnhancementHistory`. -/
structure HistoryResponse where
  success : Bool
  data : List EnhancementRecord
deriving DecidableEq

/-- `mockAPI.getEnhancementHistory` from mockData.js: resolves with the whole
`mockEnhancementHistory` list, in its stored order. -/
def getEnhancementHistory : HistoryResponse :=
  { success := true, data := mockEnhancementHistory }

/- ===== Download handler (handleDownload, EnhancementHistory.jsx) ===== -/

/-- Result of `handleDownload`: either the early return behind the toast
"Download not available" (no request, no link click), or a started download
carrying the filename assigned to `link.download`. -/
inductive DownloadResult
  | rejected
  | started (filename : String)
deriving DecidableEq

/-- Find the first occurrence of `pat` in a character list and return what
follows it (the basis of a `match(/pat(.+)/)` capture). -/
def findAfter (pat : List Char) : List Char → Option (List Char)
  | [] => if pat = [] then some [] else none
  | c :: cs =>
    if pat.isPrefixOf (c :: cs) then some ((c :: cs).drop pat.length)
    else findAfter pat cs

/-- The `contentDisposition.match(/filename=(.+)/)` extraction of
`handleDownload`: the text after the first `filename=`, when non-empty,
with every `"` removed (the `.replace(/"/g, '')`). -/
def filenameFromContentDisposition (cd : String) : Option String :=
  match findAfter "filename=".data cd.data with
  | none => none
  | some rest =>
    if rest = [] then none
    else some (String.mk (rest.filter fun c => c ≠ '"'))

/-- `handleDownload` from EnhancementHistory.jsx.  When `item.status` is not
`'Completed'` it returns early with a destructive toast and starts nothing.
Otherwise the filename is `item.enhancedImageName` when present (`||`), the
fallback `` `enhanced_${item.originalImageName}.png` `` otherwise, and the
`content-disposition` response header, when it carries a `filename=`,
overrides both. -/
def handleDownload (item : EnhancementRecord) (contentDisposition : Option String) :
    DownloadResult :=
  if item.status ≠ "Completed" then .rejected
  else
    let base := if item.enhancedImageName = ""
      then "enhanced_" ++ item.originalImageName ++ ".png"
      else item.enhancedImageName
    let filename := match contentDisposition with
      | some cd =>
        match filenameFromContentDisposition cd with
        | some f => f
        | none => base
      | none => base
    .started filename

/-- Spec-side helper for the download filename contract: the original name
with its extension removed (the part after the last dot). -/
def stripExtension (s : String) : String :=
  if s.data.contains '.' then
    String.mk (((s.data.reverse.dropWhile fun c => c ≠ '.').drop 1).reverse)
  else s

/-- Spec-side definition of the suggested download filename, following the
spec's words: the original name with an `enhanced_` prefix and the fixed
`.png` extension, independent of the original extension. -/
def specSuggestedFilename (originalName : String) : String :=
  "enhanced_" ++ stripExtension originalName ++ ".png"

/- ===== Theorems ===== -/

/-- Claim C1, as stated, is false: the pixel loop stores the enhanced value
through a `Uint8ClampedArray` write, which rounds.  For the input pixel
(200, 100, 50, 255) the stored channel value is the byte 149, while
`E = min(255, L · 1.2) = 149.04`, so the output channel does not equal `E`. -/
theorem enhancement_output_not_exact :
    enhanceData [200, 100, 50, 255] = [149, 149, 149, 255] ∧
    ((149 : ℚ) ≠ min 255 (luma ⟨200, 100, 50, 255⟩ * (12 / 10))) := by
  constructor
  · simp only [enhanceData]
    norm_num
    apply toUint8Clamp_eq_round_down <;> norm_num
  · simp only [luma]
    norm_num

/-- Claim C1 (amended): for every input pixel (R, G, B, A) the pixel loop of
`simulateEnhancement` outputs a pixel (e, e, e, A) — the three color channels
are set to one common byte `e` lying within 1/2 of
`E = min(255, L · 1.2)` with `L = 0.299·R + 0.587·G + 0.114·B`, and the
alpha channel is unchanged.  The byte function is existential because the
source rounds the float64 value and this model rounds the exact value; the
two can differ only in the direction a half-integer tie rounds, and both
satisfy the stated bound. -/
theorem enhancement_pixel_map (ps : List Pixel) :
    ∃ e : Pixel → ℕ,
      enhanceData (flattenPixels ps) =
        flattenPixels (ps.map fun p => Pixel.mk (e p) (e p) (e p) p.a) ∧
      ∀ p : Pixel, |((e p : ℕ) : ℚ) - min 255 (luma p * (12 / 10))| ≤ 1 / 2 := by
  refine ⟨fun p => toUint8Clamp (min 255 (luma p * (12 / 10))), ?_, ?_⟩
  · induction ps with
    | nil => rfl
    | cons p ps ih =>
      simp only [flattenPixels, List.map, enhanceData]
      rw [ih]
      rfl
  · intro p
    exact toUint8Clamp_close _
      (le_min (by norm_num) (mul_nonneg (luma_nonneg p) (by norm_num)))
      (min_le_left _ _)

/-- Witness for C1 (amended): the amended pixel map, instantiated at the
one-pixel image (200, 100, 50, 255). -/
theorem enhancement_pixel_map_witness :
    ∃ e : Pixel → ℕ,
      enhanceData (flattenPixels [⟨200, 100, 50, 255⟩]) =
        flattenPixels (([⟨200, 100, 50, 255⟩] : List Pixel).map
          fun p => Pixel.mk (e p) (e p) (e p) p.a) ∧
      ∀ p : Pixel, |((e p : ℕ) : ℚ) - min 255 (luma p * (12 / 10))| ≤ 1 / 2 :=
  enhancement_pixel_map [⟨200, 100, 50, 255⟩]

/-- Claim C4: on the 1×1 image with RGB (200, 100, 50), whatever the input
encoding and the alpha byte, the enhancement produces the pixel
(149, 149, 149) (the rounding of 149.04) with the alpha channel unchanged. -/
theorem enhancement_sample_pixel (fmt : String) (a : ℕ) :
    simulateEnhancement ⟨fmt, ⟨1, 1, [200, 100, 50, a]⟩⟩ =
      ⟨"image/png", ⟨1, 1, [149, 149, 149, a]⟩⟩ := by
  simp only [simulateEnhancement, enhanceData]
  norm_num
  apply toUint8Clamp_eq_round_down <;> norm_num

/-- Claim C5: the enhancement re-encodes with `canvas.toDataURL('image/png')`,
so the output format is `"image/png"` for every input image, whatever its
input format. -/
theorem enhancement_output_always_png (originalImage : EncodedImage) :
    (simulateEnhancement originalImage).format = "image/png" := rfl

/-- Claim C2: when the declared mime type is outside the allow-list,
`handleFileSelect` returns early with the invalid-format error; no file is
stored in state and no upload request is sent, so no job record and no
asset can come into being. -/
theorem upload_invalid_type_rejected (file : JSFile) (h : file.type ∉ validTypes) :
    handleFileSelect file = (noEffects, UploadOutcome.invalidFormat) := by
  simp [handleFileSelect, h]

/-- Witness for C2: a 1000-byte `image/gif` upload is rejected as invalid
format with no side effects. -/
theorem upload_invalid_type_rejected_witness :
    handleFileSelect ⟨"scan.gif", "image/gif", 1000⟩ =
      (noEffects, UploadOutcome.invalidFormat) :=
  upload_invalid_type_rejected ⟨"scan.gif", "image/gif", 1000⟩ (by decide)

/-- Claim C3, as stated, is false: an upload of 10 MiB + 1 bytes whose mime
type is `image/gif` exceeds the size limit, yet `handleFileSelect` reports
the invalid format, not the file-too-large error, because the type check
runs first. -/
theorem oversized_invalid_type_not_fileTooLarge :
    10 * 1024 * 1024 < (10485761 : ℕ) ∧
    handleFileSelect ⟨"huge.gif", "image/gif", 10485761⟩ =
      (noEffects, UploadOutcome.invalidFormat) ∧
    UploadOutcome.invalidFormat ≠ UploadOutcome.fileTooLarge := by
  refine ⟨by norm_num, by decide, by decide⟩

/-- Claim C3 (amended): for uploads of an accepted mime type, a size above
10 MiB fails with the file-too-large error and has no side effects, while a
size at or below the limit is accepted and starts the upload. -/
theorem upload_size_limit (file : JSFile) (h : file.type ∈ validTypes) :
    (10 * 1024 * 1024 < file.size →
      handleFileSelect file = (noEffects, UploadOutcome.fileTooLarge)) ∧
    (file.size ≤ 10 * 1024 * 1024 →
      handleFileSelect file = (⟨some file, true⟩, UploadOutcome.accepted)) := by
  constructor
  · intro hs
    simp [handleFileSelect, h, hs]
  · intro hs
    simp [handleFileSelect, h, Nat.not_lt.mpr hs]

/-- Witness for C3 (amended): an oversized JPEG fails file-too-large and a
small PNG is accepted. -/
theorem upload_size_limit_witness :
    handleFileSelect ⟨"big.jpg", "image/jpeg", 10485761⟩ =
      (noEffects, UploadOutcome.fileTooLarge) ∧
    handleFileSelect ⟨"ok.png", "image/png", 12345⟩ =
      (⟨some ⟨"ok.png", "image/png", 12345⟩, true⟩, UploadOutcome.accepted) :=
  ⟨(upload_size_limit ⟨"big.jpg", "image/jpeg", 10485761⟩ (by decide)).1 (by norm_num),
   (upload_size_limit ⟨"ok.png", "image/png", 12345⟩ (by decide)).2 (by norm_num)⟩

/-- Claim C6: `handleDownload` starts a download only for a job whose status
is `Completed`; on every other status it returns early with the
"Download not available" toast and starts nothing, whatever the response
header would have been. -/
theorem download_requires_completed (item : EnhancementRecord)
    (cd : Option String) :
    (item.status ≠ "Completed" → handleDownload item cd = DownloadResult.rejected) ∧
    (∀ f, handleDownload item cd = DownloadResult.started f →
      item.status = "Completed") := by
  by_cases h : item.status = "Completed" <;> simp [handleDownload, h]

/-- Witness for C6: a job still in `Processing` status is rejected. -/
theorem download_requires_completed_witness :
    handleDownload ⟨"9", "x.png", "", "", "", "Processing", 0⟩ none =
      DownloadResult.rejected :=
  (download_requires_completed ⟨"9", "x.png", "", "", "", "Processing", 0⟩ none).1
    (by decide)

/-- Claim C7: for every completed job of the history, the filename
`handleDownload` assigns to the download link is the job's original filename
with its extension removed, an `enhanced_` prefix and the fixed `.png`
extension — the shape `specSuggestedFilename` states. -/
theorem download_filename_shape (item : EnhancementRecord)
    (h : item ∈ mockEnhancementHistory) (hc : item.status = "Completed") :
    handleDownload item none =
      DownloadResult.started (specSuggestedFilename item.originalImageName) := by
  simp only [mockEnhancementHistory, List.mem_cons, List.not_mem_nil, or_false] at h
  rcases h with h | h | h <;> subst h <;> decide

/-- Witness for C7: the first history record downloads as
`enhanced_brain_scan_001.png`. -/
theorem download_filename_shape_witness :
    handleDownload
        ⟨"1", "brain_scan_001.png", "enhanced_brain_scan_001.png",
          "2025-01-15T10:30:00Z", "Grayscale + Sharpening", "Completed", 15 / 10⟩
        none =
      DownloadResult.started "enhanced_brain_scan_001.png" :=
  download_filename_shape
    ⟨"1", "brain_scan_001.png", "enhanced_brain_scan_001.png",
      "2025-01-15T10:30:00Z", "Grayscale + Sharpening", "Completed", 15 / 10⟩
    (List.mem_cons_self _ _) rfl

/-- Claim C8: `getEnhancementHistory` resolves successfully with every stored
job, and the list is ordered most-recently-uploaded first: each record's
upload timestamp is strictly later than the next one's. -/
theorem history_all_jobs_most_recent_first :
    getEnhancementHistory.success = true ∧
    getEnhancementHistory.data = mockEnhancementHistory ∧
    List.Chain' (fun a b => b.uploadDate.data < a.uploadDate.data)
      getEnhancementHistory.data := by
  refine ⟨rfl, rfl, ?_⟩
  simp only [getEnhancementHistory, mockEnhancementHistory, List.chain'_cons,
    List.chain'_singleton, and_true]
  exact ⟨by decide, by decide⟩

/-- Claim C9: every job record of the history carries the fixed enhancement
type `"Grayscale + Sharpening"`; no operation of the mock API builds any
other record, so no other value ever appears. -/
theorem enhancementType_fixed (r : EnhancementRecord)
    (h : r ∈ getEnhancementHistory.data) :
    r.enhancementType = "Grayscale + Sharpening" := by
  simp only [getEnhancementHistory, mockEnhancementHistory, List.mem_cons,
    List.not_mem_nil, or_false] at h
  rcases h with h | h | h <;> subst h <;> rfl

/-- Witness for C9: the first history record has the fixed enhancement type. -/
theorem enhancementType_fixed_witness :
    (⟨"1", "brain_scan_001.png", "enhanced_brain_scan_001.png",
        "2025-01-15T10:30:00Z", "Grayscale + Sharpening", "Completed",
        15 / 10⟩ : EnhancementRecord).enhancementType =
      "Grayscale + Sharpening" :=
  enhancementType_fixed
    ⟨"1", "brain_scan_001.png", "enhanced_brain_scan_001.png",
      "2025-01-15T10:30:00Z", "Grayscale + Sharpening", "Completed", 15 / 10⟩
    (List.mem_cons_self _ _)

/-- Claim C10, as stated, is false in one point: when `Math.random()` returns
0.5, `Math.random().toString(36)` is `"0.i"` and `.substr(2, 9)` keeps only
`"i"` — the id has 1 character, not 9.  The call still resolves with
`success: true`. -/
theorem mock_upload_short_id :
    (uploadImage [] "0.i").success = true ∧
    (uploadImage [] "0.i").imageId = "i" ∧
    (uploadImage [] "0.i").imageId.length ≠ 9 := by
  refine ⟨rfl, rfl, ?_⟩
  decide

/-- Claim C10 (amended): for every input, including empty or invalid form
data, `mockAPI.uploadImage` resolves with `success: true` and an id of at
most 9 characters taken from the fresh random base-36 string; it never
inspects the form data, performs no validation and never returns an error. -/
theorem mock_upload_always_succeeds (formData : List (String × String))
    (randString36 : String) :
    (uploadImage formData randString36).success = true ∧
    (uploadImage formData randString36).imageId.length ≤ 9 ∧
    uploadImage formData randString36 = uploadImage [] randString36 := by
  refine ⟨rfl, ?_, rfl⟩
  show ((randString36.data.drop 2).take 9).length ≤ 9
  rw [List.length_take]
  exact min_le_left _ _
